import Mathlib

/-!
Verification of the LEdit core: workspace tree model, selection list,
command registry and dispatcher, and the interaction state machine.
The definitions below are shallow embeddings of the Rust sources
(src/application.rs, src/commands.rs, src/util/mod.rs): pure functions
become Lean functions, the mutable application state becomes explicit
state passing, the asynchronous event channel becomes a value of
published events together with a flag telling whether sends succeed,
and the filesystem becomes an explicit finite tree value.
-/

namespace LEdit

/-- Application mode, from util/mod.rs (enum AppMode). -/
inductive AppMode where
  | InsertMode
  | CommandMode
  | NormalMode
deriving DecidableEq

/-- Status severity, from util/mod.rs (enum StatusLevel). -/
inductive StatusLevel where
  | INFO
  | WARNING
  | ERROR
deriving DecidableEq

/-- Status-bar message, from util/mod.rs (struct Status). -/
structure Status where
  text : String
  level : StatusLevel
deriving DecidableEq

/-- Default status, from util/mod.rs (impl Default for Status). -/
def Status.default : Status := ⟨"", StatusLevel.INFO⟩

/-- Application events carried by the bus, from util/mod.rs (enum AppEvent).
ShowDialog carries a (title, content) pair in the source. -/
inductive AppEvent where
  | Close
  | ShowDialog (title : String) (content : String)
  | SetStatus (s : Status)
  | SetWorkspace (path : String)
deriving DecidableEq

/-- Node kind, from util/mod.rs (enum NodeType). -/
inductive NodeType where
  | File
  | Directory
  | Info
deriving DecidableEq

/-- Key events the application handles, from the termion keys matched in
application.rs (Key::Char, Key::Esc, Key::Down, Key::Up, Key::Backspace);
`other` stands for every remaining key, which all handlers ignore. -/
inductive Key where
  | Char (c : Char)
  | Esc
  | Down
  | Up
  | Backspace
  | other
deriving DecidableEq

/-- Command errors, from commands.rs (enum CommandError). -/
inductive CommandError where
  | NotFound
  | InvalidSyntax
  | ExecutionError (reason : Option String)
deriving DecidableEq

/-- Cursor-tracked list, from util/mod.rs (struct StatefulList); the
tui ListState is embedded as its selected index. -/
structure StatefulList (α : Type) where
  selected : Option Nat
  items : List α

/-- StatefulList::next from util/mod.rs.  The source computes
`self.items.len() - 1` with usize arithmetic; the claims below only
concern states where this subtraction is not taken on an empty list
with a selected index, so Nat subtraction is adequate. -/
def StatefulList.next (l : StatefulList α) : StatefulList α :=
  let i := match l.selected with
    | some i => if i ≥ l.items.length - 1 then 0 else i + 1
    | none => 0
  { l with selected := some i }

/-- StatefulList::previous from util/mod.rs. -/
def StatefulList.previous (l : StatefulList α) : StatefulList α :=
  let i := match l.selected with
    | some i => if i = 0 then l.items.length - 1 else i - 1
    | none => 0
  { l with selected := some i }

/-- StatefulList::unselect from util/mod.rs. -/
def StatefulList.unselect (l : StatefulList α) : StatefulList α :=
  { l with selected := none }

/-- Rust str::split for a single separator character, preserving empty
pieces, implemented structurally so it evaluates in the kernel. -/
def splitChars (sep : Char) (cs : List Char) : List String :=
  cs.foldr (fun c acc =>
    if c = sep then "" :: acc
    else match acc with
      | h :: t => String.mk (c :: h.data) :: t
      | [] => [String.mk [c]]) [""]

/-- Rust `s.split(sep).collect::<Vec<String>>()`. -/
def splitChar (sep : Char) (s : String) : List String := splitChars sep s.data

/-- The command objects, from commands.rs: QuitCommand, OpenCommand and
HelpCommand (which owns a name-to-description map built at registration). -/
inductive Cmd where
  | QuitCommand
  | OpenCommand
  | HelpCommand (commands : List (String × String))
deriving DecidableEq

/-- Command::get_name implementations from commands.rs. -/
def Cmd.get_name : Cmd → String
  | .QuitCommand => "quit"
  | .OpenCommand => "open"
  | .HelpCommand _ => "help"

/-- Command::get_aliases implementations from commands.rs. -/
def Cmd.get_aliases : Cmd → List String
  | .QuitCommand => ["q"]
  | .OpenCommand => ["o"]
  | .HelpCommand _ => ["h"]

/-- Command::get_description implementations from commands.rs. -/
def Cmd.get_description : Cmd → String
  | .QuitCommand => "Quits the application without saving.\nUsage: quit"
  | .OpenCommand => "Set the current workspace to the given one.\nUsage: open <directory>"
  | .HelpCommand _ => "Get help for the given command\nUsage: help <command name>"

/-- Command::execute implementations from commands.rs.  The asynchronous
send on the channel is modelled by `sendOk`: when it is true the send
succeeds and the sent events are returned, when it is false the send
fails and the command returns the corresponding ExecutionError. -/
def Cmd.execute (c : Cmd) (sendOk : Bool) (args : List String) :
    Except CommandError (List AppEvent) :=
  match c with
  | .QuitCommand =>
      if sendOk then .ok [.Close]
      else .error (.ExecutionError
        (some "Error while sending the quit event to the application"))
  | .OpenCommand =>
      if args.length < 1 then .error .InvalidSyntax
      else if sendOk then .ok [.SetWorkspace (args.headD "")]
      else .error (.ExecutionError
        (some "Error while sending workspace event to the application"))
  | .HelpCommand commands =>
      if args.length < 1 then .error .InvalidSyntax
      else
        let a := args.headD ""
        match commands.lookup a with
        | some desc =>
            if sendOk then .ok [.ShowDialog ("Help for " ++ a ++ " command") desc]
            else .error (.ExecutionError
              (some "Error while sending the dialog event to the application"))
        | none =>
            if sendOk then .ok [.SetStatus ⟨a ++ " command doesn't exist", .ERROR⟩]
            else .error (.ExecutionError
              (some "Error while sending the status event to the application"))

/-- The description map HelpCommand::new builds in App::setup_commands:
at that point the registry holds QuitCommand and OpenCommand, and the
synthetic help entry is inserted afterwards. -/
def helpMap : List (String × String) :=
  [("quit", Cmd.get_description .QuitCommand),
   ("open", Cmd.get_description .OpenCommand),
   ("help", "Get help for the given command\nUsage: help <command name>")]

/-- The registry after App::setup_commands: quit, open, then help. -/
def setupCommands : List Cmd :=
  [.QuitCommand, .OpenCommand, .HelpCommand helpMap]

/-- CommandParser::parse from commands.rs: split the buffer on spaces and
match the first token against each command name, then its aliases, in
registry order.  Only NotFound can be produced here. -/
def parse (commands : List Cmd) (buffer : String) : Except CommandError Cmd :=
  let splitted := splitChar ' ' buffer
  let tok := splitted.headD ""
  match commands.find? (fun cmd =>
      tok == cmd.get_name || cmd.get_aliases.contains tok) with
  | some cmd => .ok cmd
  | none => .error .NotFound

/-- Tree node, from application.rs (struct Node).  The Uuid is modelled
as a Nat drawn from a fresh-id counter; Vec<Box<Node>> becomes List Node. -/
inductive Node where
  | mk (display_name : String) (value : String) (children : Option (List Node))
       (expanded : Option Bool) (uuid : Nat) (layer : Nat) (node_type : NodeType)

/-- Field display_name of a Node. -/
def Node.display_name : Node → String
  | .mk dn _ _ _ _ _ _ => dn

/-- Field value of a Node. -/
def Node.value : Node → String
  | .mk _ v _ _ _ _ _ => v

/-- Field children of a Node. -/
def Node.children : Node → Option (List Node)
  | .mk _ _ cs _ _ _ _ => cs

/-- Field expanded of a Node. -/
def Node.expanded : Node → Option Bool
  | .mk _ _ _ exp _ _ _ => exp

/-- Field uuid of a Node. -/
def Node.uuid : Node → Nat
  | .mk _ _ _ _ u _ _ => u

/-- Field layer of a Node. -/
def Node.layer : Node → Nat
  | .mk _ _ _ _ _ l _ => l

/-- Field node_type of a Node. -/
def Node.node_type : Node → NodeType
  | .mk _ _ _ _ _ _ t => t

/-- Node::cmp from application.rs, transcribed branch by branch:
Info ranks above every other kind, Directory above File, and nodes of
equal kind compare by display_name. -/
def Node.cmp (self other : Node) : Ordering :=
  match self.node_type, other.node_type with
  | .Info, .Info => compare self.display_name other.display_name
  | .Info, _ => .gt
  | .Directory, .Directory => compare self.display_name other.display_name
  | .Directory, .Info => .lt
  | .Directory, .File => .gt
  | .File, .Directory => .lt
  | .File, .Info => .lt
  | .File, .File => compare self.display_name other.display_name

/-- One insertion step of a stable sort: the new element goes before the
first element it compares strictly less than, hence after its equals. -/
def insertBy (cmpf : α → α → Ordering) (x : α) : List α → List α
  | [] => [x]
  | y :: ys => if cmpf x y = .lt then x :: y :: ys else y :: insertBy cmpf x ys

/-- Vec::sort_by: a stable sort by the given comparator, modelled as a
left-fold insertion sort (stable because insertBy puts equals after). -/
def sort_by (cmpf : α → α → Ordering) (l : List α) : List α :=
  l.foldl (fun acc x => insertBy cmpf x acc) []

/-- The flip the key handler applies to an expanded field:
`if let Some(exp) = node.expanded { node.expanded = Some(!exp) }`. -/
def flipOpt : Option Bool → Option Bool
  | some b => some (!b)
  | none => none

/-- A node with its expanded field flipped, used to describe the effect
of toggling on the node the search finds. -/
def flipExpanded : Node → Node
  | .mk dn v cs exp u layer ty => .mk dn v cs (flipOpt exp) u layer ty

mutual
/-- The inner check function of Nodes::from_uuid in application.rs:
return the node itself when the uuid matches, otherwise the first
match found among the children in order. -/
def checkNode (id : Nat) : Node → Option Node
  | .mk dn v cs exp u layer ty =>
    if u = id then some (.mk dn v cs exp u layer ty)
    else match cs with
      | some l => checkList id l
      | none => none

/-- The loop of Nodes::from_uuid over a node sequence: first match wins. -/
def checkList (id : Nat) : List Node → Option Node
  | [] => none
  | n :: rest => match checkNode id n with
      | some m => some m
      | none => checkList id rest
end

/-- Nodes::from_uuid from application.rs, as a pure lookup. -/
def from_uuid (id : Nat) (ns : List Node) : Option Node := checkList id ns

mutual
/-- Search-and-update form of the space-key handler in application.rs:
locate the node as Nodes::from_uuid does and flip its expanded field in
place; the Bool reports whether the uuid was found, and an unfound
search leaves the node untouched. -/
def toggleNode (id : Nat) : Node → Node × Bool
  | .mk dn v cs exp u layer ty =>
    if u = id then (.mk dn v cs (flipOpt exp) u layer ty, true)
    else match cs with
      | none => (.mk dn v cs exp u layer ty, false)
      | some l => (.mk dn v (some (toggleList id l).1) exp u layer ty, (toggleList id l).2)

/-- The search-and-update walk over a node sequence: the first node that
contains the uuid is updated, the rest are untouched. -/
def toggleList (id : Nat) : List Node → List Node × Bool
  | [] => ([], false)
  | n :: rest =>
    if (toggleNode id n).2 then ((toggleNode id n).1 :: rest, true)
    else (n :: (toggleList id rest).1, (toggleList id rest).2)
end

/-- The toggle-expand operation the space key performs on the tree. -/
def toggle_expand (id : Nat) (ns : List Node) : List Node :=
  (toggleList id ns).1

/-- The glyph prefix the expand function in application.rs puts before a
display name according to the expanded field. -/
def glyphName (n : Node) : String :=
  match n.expanded with
  | some true => "▼ " ++ n.display_name
  | some false => "▶ " ++ n.display_name
  | none => n.display_name

/-- The indentation loop of the expand function: three spaces per layer. -/
def indented : Nat → String → String
  | 0, s => s
  | k + 1, s => indented k ("   " ++ s)

/-- The flat row the expand function pushes onto the stateful list for a
visited node: decorated name, no children, cleared expand state, the
uuid of the source node, layer 0, File type. -/
def rowOf (n : Node) : Node :=
  .mk (indented n.layer (glyphName n)) (indented n.layer (glyphName n))
    none none n.uuid 0 .File

mutual
/-- The expand function from application.rs on one node: emit the row for
the node, then recurse into the children exactly when the expanded
field is Some(true). -/
def expandNode : Node → List Node
  | .mk dn v cs exp u layer ty =>
    rowOf (.mk dn v cs exp u layer ty) ::
      (match exp, cs with
       | some true, some l => expandList l
       | _, _ => [])

/-- The loop in render that runs expand over every root in order. -/
def expandList : List Node → List Node
  | [] => []
  | n :: rest => expandNode n ++ expandList rest
end

mutual
/-- Every node of a tree paired with its chain of proper ancestors
(nearest first), following the wording of the spec about ancestor
chains; used only to compare the flatten output against the spec. -/
def withAncNode (anc : List Node) : Node → List (Node × List Node)
  | .mk dn v cs exp u layer ty =>
    (.mk dn v cs exp u layer ty, anc) ::
      (match cs with
       | some l => withAncList (.mk dn v cs exp u layer ty :: anc) l
       | none => [])

/-- withAncNode extended over a sequence of siblings. -/
def withAncList (anc : List Node) : List (Node) → List (Node × List Node)
  | [] => []
  | n :: rest => withAncNode anc n ++ withAncList anc rest
end

/-- Whether every node in a chain of ancestors is expanded. -/
def allExpanded (anc : List Node) : Bool :=
  anc.all (fun a => a.expanded == some true)

/-- A filesystem value: a file, a directory whose listing fails, or a
directory with a finite listing of named entries in file-system order. -/
inductive FS where
  | file : FS
  | dir : Option (List (String × FS)) → FS

mutual
/-- The expand_path helper of App::load_explorer in application.rs.
ctr is the fresh-uuid supply consumed by Node::new.  A file becomes a
childless File node; a directory whose read_dir fails makes expand_path
return Err (modelled as none); a readable directory becomes a collapsed
Directory node whose children are the successful recursive results. -/
def expandPath (ctr : Nat) (name path : String) (f : FS) (level : Nat) :
    Option Node × Nat :=
  match f with
  | .file => (some (.mk name path none none ctr level .File), ctr + 1)
  | .dir none => (none, ctr + 1)
  | .dir (some es) =>
      let r := expandEntries (ctr + 1) path es (level + 1)
      (some (.mk name path (some r.1) (some false) ctr level .Directory), r.2)

/-- The per-entry loop of expand_path and of App::load_explorer: entries
whose recursive expansion fails are silently skipped. -/
def expandEntries (ctr : Nat) (parent : String) (es : List (String × FS))
    (level : Nat) : List Node × Nat :=
  match es with
  | [] => ([], ctr)
  | (n, f) :: rest =>
      let r := expandPath ctr n (parent ++ "/" ++ n) f level
      let rs := expandEntries r.2 parent rest level
      (match r.1 with | some nd => nd :: rs.1 | none => rs.1, rs.2)
end

/-- App::load_explorer from application.rs.  The filesystem is the fs
lookup: none means the path does not exist.  A missing working path
produces the synthetic Info placeholder; an existing directory is
expanded entry by entry; a failing top-level read_dir propagates Err
(so the caller keeps the previous node list); every successful branch
sorts the produced roots with sort_by over the reversed comparator
exactly as the source call `sort_by(|a, b| b.cmp(a))` does. -/
def load_explorer (ctr : Nat) (working_path : Option String)
    (fs : String → Option FS) : Except Unit (List Node × Nat) :=
  match working_path with
  | some workspace_path =>
      match fs workspace_path with
      | none => .ok (sort_by (fun a b => Node.cmp b a) [], ctr)
      | some .file => .ok (sort_by (fun a b => Node.cmp b a) [], ctr)
      | some (.dir none) => .error ()
      | some (.dir (some entries)) =>
          let r := expandEntries ctr workspace_path entries 0
          .ok (sort_by (fun a b => Node.cmp b a) r.1, r.2)
  | none =>
      .ok (sort_by (fun a b => Node.cmp b a)
        [.mk "Empty workspace" "" none none ctr 0 .Info], ctr + 1)

/-- The application state, from application.rs (struct App).  The parts
the core mutates are kept; the event channel is modelled elsewhere by
the sendOk flag and the returned event lists, and uuid_ctr is the
fresh-uuid supply. -/
structure AppState where
  items : StatefulList Node
  file_view : Bool
  should_close : Bool
  mode : AppMode
  command_buffer : String
  commands : List Cmd
  status : Status
  show_dialog : Bool
  dialog_content : String
  dialog_title : String
  working_path : Option String
  file_list : List Node
  uuid_ctr : Nat

/-- App::close from application.rs. -/
def close (s : AppState) : AppState := { s with should_close := true }

/-- The state App::new builds, after setup_commands has registered the
built-in commands as main.rs does at startup. -/
def initialApp : AppState where
  items := ⟨none, []⟩
  file_view := true
  should_close := false
  mode := .NormalMode
  command_buffer := ""
  commands := setupCommands
  status := Status.default
  show_dialog := false
  dialog_content := ""
  dialog_title := ""
  working_path := none
  file_list := []
  uuid_ctr := 0

/-- The Key::Char('\n') branch of command mode in render: parse the
buffer, execute the command, surface InvalidSyntax from execution and
every parse error in the status bar, then clear the buffer.  Returns
the new state and the events the execution published. -/
def submitCommand (sendOk : Bool) (s : AppState) : AppState × List AppEvent :=
  if s.command_buffer ≠ "" then
    match parse s.commands s.command_buffer with
    | .ok cmd =>
        let args := (splitChar ' ' s.command_buffer).drop 1
        match cmd.execute sendOk args with
        | .error .InvalidSyntax =>
            ({ s with
                status := ⟨"Invalid syntax! Type `help " ++ cmd.get_name ++ "`",
                  .ERROR⟩
                command_buffer := "" }, [])
        | .error _ => ({ s with command_buffer := "" }, [])
        | .ok evs => ({ s with command_buffer := "" }, evs)
    | .error e =>
        (match e with
         | .NotFound =>
             { s with
               status := ⟨"Command not found!", .ERROR⟩
               command_buffer := "" }
         | .InvalidSyntax =>
             { s with
               status := ⟨"Invalid syntax!", .ERROR⟩
               command_buffer := "" }
         | .ExecutionError r =>
             { s with
               status := ⟨(match r with
                 | some msg => "Error while executing the command: " ++ msg
                 | none => "Error while executing the command: Unknown error"),
                 .ERROR⟩
               command_buffer := "" }, [])
  else (s, [])

/-- The space-key branch of normal mode in render: read the row under
the cursor and toggle the expanded field of the tree node with that
row uuid.  The source indexes the row vector directly; the lookup here
carries a bounds check, so a stale out-of-range cursor is a no-op where
the source would panic. -/
def toggleSelected (s : AppState) : AppState :=
  match s.items.selected with
  | some ind =>
      match s.items.items.get? ind with
      | some row => { s with file_list := toggle_expand row.uuid s.file_list }
      | none => s
  | none => s

/-- The Key::Char arms of normal mode in render, in source order; every
arm other than the dialog-closing newline is guarded by the dialog flag. -/
def normalChar (s : AppState) (c : Char) : AppState × List AppEvent :=
  if c = '\n' then
    (if s.show_dialog then { s with show_dialog := false } else s, [])
  else if c = 'q' then (if !s.show_dialog then close s else s, [])
  else if c = 'f' then
    (if !s.show_dialog then { s with file_view := !s.file_view } else s, [])
  else if c = 'c' then
    (if !s.show_dialog then { s with mode := .CommandMode } else s, [])
  else if c = 'i' then
    (if !s.show_dialog then { s with mode := .InsertMode } else s, [])
  else if c = ' ' then (if !s.show_dialog then toggleSelected s else s, [])
  else (s, [])

/-- The normal-mode key dispatch of render. -/
def normalKey (s : AppState) (k : Key) : AppState × List AppEvent :=
  match k with
  | .Char c => normalChar s c
  | .Esc =>
      (if !s.show_dialog then
        (if s.file_view then { s with items := s.items.unselect } else s)
      else s, [])
  | .Down =>
      (if !s.show_dialog then
        (if s.file_view then { s with items := s.items.next } else s)
      else s, [])
  | .Up =>
      (if !s.show_dialog then
        (if s.file_view then { s with items := s.items.previous } else s)
      else s, [])
  | _ => (s, [])

/-- The insert-mode key dispatch of render: only escape is consumed. -/
def insertKey (s : AppState) (k : Key) : AppState × List AppEvent :=
  match k with
  | .Esc => ({ s with mode := .NormalMode }, [])
  | _ => (s, [])

/-- The command-mode key dispatch of render: escape leaves the mode,
newline submits the buffer, printable characters append to it and
backspace removes its last character. -/
def commandKey (sendOk : Bool) (s : AppState) (k : Key) : AppState × List AppEvent :=
  match k with
  | .Esc => ({ s with mode := .NormalMode }, [])
  | .Char c =>
      if c = '\n' then submitCommand sendOk s
      else ({ s with command_buffer := s.command_buffer.push c }, [])
  | .Backspace =>
      ({ s with command_buffer := s.command_buffer.dropRight 1 }, [])
  | _ => (s, [])

/-- The input-event dispatch of render in application.rs: route the key
to the handler of the active mode; returns the new state and the events
published by a submitted command. -/
def handleInput (sendOk : Bool) (s : AppState) (k : Key) : AppState × List AppEvent :=
  match s.mode with
  | .NormalMode => normalKey s k
  | .InsertMode => insertKey s k
  | .CommandMode => commandKey sendOk s k

/-- The receiver drain of render in application.rs: apply one bus event
to the application state.  SetWorkspace stores the path, reloads the
explorer and reports a failed reload in the status bar. -/
def handleAppEvent (fs : String → Option FS) (s : AppState) (e : AppEvent) : AppState :=
  match e with
  | .Close => close s
  | .ShowDialog title content =>
      { s with
        show_dialog := true
        dialog_content := content
        mode := .NormalMode
        dialog_title := title }
  | .SetStatus st => { s with status := st }
  | .SetWorkspace w =>
      let s1 := { s with working_path := some w }
      match load_explorer s1.uuid_ctr s1.working_path fs with
      | .ok r => { s1 with file_list := r.1, uuid_ctr := r.2 }
      | .error _ =>
          { s1 with status := ⟨"Error while loading the explorer", .ERROR⟩ }

/-- One outside stimulus: a key event or a bus event. -/
inductive Ev where
  | key (k : Key)
  | bus (e : AppEvent)

/-- One step of the main loop on one stimulus. -/
def step (fs : String → Option FS) (sendOk : Bool) (s : AppState) (e : Ev) : AppState :=
  match e with
  | .key k => (handleInput sendOk s k).1
  | .bus e => handleAppEvent fs s e

/-- The states the main loop reaches from the initial state under a
sequence of stimuli. -/
def run (fs : String → Option FS) (sendOk : Bool) (evs : List Ev) : AppState :=
  evs.foldl (step fs sendOk) initialApp

/-- The dialog invariant: an open dialog forces normal mode. -/
def dialogModeInv (s : AppState) : Bool :=
  !s.show_dialog || (s.mode == .NormalMode)

/-- A small sample tree: an expanded directory with one file child next
to a top-level file, used to evaluate the tree operations concretely. -/
def sampleTree : List Node :=
  [.mk "d" "/d" (some [.mk "x" "/d/x" none none 2 1 .File]) (some true) 1 0 .Directory,
   .mk "y" "/y" none none 3 0 .File]

mutual
/-- Mutual induction for the nested Node type, node side. -/
theorem nodeIndAux (P : Node → Prop) (Q : List Node → Prop)
    (hleaf : ∀ dn v exp u layer ty, P (.mk dn v none exp u layer ty))
    (hnode : ∀ dn v cs exp u layer ty, Q cs → P (.mk dn v (some cs) exp u layer ty))
    (hnil : Q []) (hcons : ∀ n l, P n → Q l → Q (n :: l)) : ∀ n : Node, P n
  | .mk dn v none exp u layer ty => hleaf dn v exp u layer ty
  | .mk dn v (some cs) exp u layer ty =>
      hnode dn v cs exp u layer ty (listIndAux P Q hleaf hnode hnil hcons cs)

/-- Mutual induction for the nested Node type, list side. -/
theorem listIndAux (P : Node → Prop) (Q : List Node → Prop)
    (hleaf : ∀ dn v exp u layer ty, P (.mk dn v none exp u layer ty))
    (hnode : ∀ dn v cs exp u layer ty, Q cs → P (.mk dn v (some cs) exp u layer ty))
    (hnil : Q []) (hcons : ∀ n l, P n → Q l → Q (n :: l)) : ∀ l : List Node, Q l
  | [] => hnil
  | n :: l => hcons n l (nodeIndAux P Q hleaf hnode hnil hcons n)
      (listIndAux P Q hleaf hnode hnil hcons l)
end

/-- A search that does not find the uuid leaves the tree untouched. -/
theorem toggle_not_found (id : Nat) :
    (∀ n : Node, (toggleNode id n).2 = false → (toggleNode id n).1 = n) ∧
    (∀ l : List Node, (toggleList id l).2 = false → (toggleList id l).1 = l) := by
  refine ⟨nodeIndAux _ (fun l => (toggleList id l).2 = false → (toggleList id l).1 = l)
    ?_ ?_ ?_ ?_, listIndAux (fun n => (toggleNode id n).2 = false → (toggleNode id n).1 = n)
    _ ?_ ?_ ?_ ?_⟩
  case _ => intro dn v exp u layer ty; simp only [toggleNode]; split <;> simp_all
  case _ => intro dn v cs exp u layer ty ih; simp only [toggleNode]; split <;> simp_all
  case _ => simp [toggleList]
  case _ => intro n l ihn ihl; simp only [toggleList]; split <;> simp_all
  case _ => intro dn v exp u layer ty; simp only [toggleNode]; split <;> simp_all
  case _ => intro dn v cs exp u layer ty ih; simp only [toggleNode]; split <;> simp_all
  case _ => simp [toggleList]
  case _ => intro n l ihn ihl; simp only [toggleList]; split <;> simp_all

/-- Toggling the same uuid twice restores the tree and reports the same
found flag. -/
theorem toggle_toggle (id : Nat) :
    (∀ n : Node, toggleNode id (toggleNode id n).1 = (n, (toggleNode id n).2)) ∧
    (∀ l : List Node, toggleList id (toggleList id l).1 = (l, (toggleList id l).2)) := by
  refine ⟨nodeIndAux _ (fun l => toggleList id (toggleList id l).1 = (l, (toggleList id l).2))
    ?_ ?_ ?_ ?_, listIndAux (fun n => toggleNode id (toggleNode id n).1 = (n, (toggleNode id n).2))
    _ ?_ ?_ ?_ ?_⟩
  case _ => intro dn v exp u layer ty; simp only [toggleNode]; split <;>
    simp_all [toggleNode, flipOpt]; cases exp <;> simp [flipOpt]
  case _ => intro dn v cs exp u layer ty ih; simp only [toggleNode]; split <;>
    simp_all [toggleNode, flipOpt]; cases exp <;> simp [flipOpt]
  case _ => simp [toggleList]
  case _ => intro n l ihn ihl; simp only [toggleList]; split <;> simp_all [toggleList]
  case _ => intro dn v exp u layer ty; simp only [toggleNode]; split <;>
    simp_all [toggleNode, flipOpt]; cases exp <;> simp [flipOpt]
  case _ => intro dn v cs exp u layer ty ih; simp only [toggleNode]; split <;>
    simp_all [toggleNode, flipOpt]; cases exp <;> simp [flipOpt]
  case _ => simp [toggleList]
  case _ => intro n l ihn ihl; simp only [toggleList]; split <;> simp_all [toggleList]

/-- Toggling commutes with the lookup: after a toggle the lookup finds
exactly the flipped node, and the found flag of the toggle agrees with
the lookup succeeding. -/
theorem check_toggle (id : Nat) :
    (∀ n : Node, checkNode id (toggleNode id n).1 = (checkNode id n).map flipExpanded ∧
      (toggleNode id n).2 = (checkNode id n).isSome) ∧
    (∀ l : List Node, checkList id (toggleList id l).1 = (checkList id l).map flipExpanded ∧
      (toggleList id l).2 = (checkList id l).isSome) := by
  refine ⟨nodeIndAux
      (fun n => checkNode id (toggleNode id n).1 = (checkNode id n).map flipExpanded ∧
        (toggleNode id n).2 = (checkNode id n).isSome)
      (fun l => checkList id (toggleList id l).1 = (checkList id l).map flipExpanded ∧
        (toggleList id l).2 = (checkList id l).isSome) ?_ ?_ ?_ ?_,
    listIndAux
      (fun n => checkNode id (toggleNode id n).1 = (checkNode id n).map flipExpanded ∧
        (toggleNode id n).2 = (checkNode id n).isSome)
      (fun l => checkList id (toggleList id l).1 = (checkList id l).map flipExpanded ∧
        (toggleList id l).2 = (checkList id l).isSome) ?_ ?_ ?_ ?_⟩
  case _ => intro dn v exp u layer ty
            by_cases h : u = id <;> simp [toggleNode, checkNode, h, flipExpanded]
  case _ => intro dn v cs exp u layer ty ih
            by_cases h : u = id <;>
              simp [toggleNode, checkNode, h, flipExpanded, ih.1, ih.2]
  case _ => simp [toggleList, checkList]
  case _ => intro n l ihn ihl
            cases hc : checkNode id n with
            | some m =>
                have ht : (toggleNode id n).2 = true := by rw [ihn.2, hc]; rfl
                have h1 := ihn.1
                rw [hc] at h1
                simp [toggleList, checkList, ht, hc, h1]
            | none =>
                have ht : (toggleNode id n).2 = false := by rw [ihn.2, hc]; rfl
                simp [toggleList, checkList, ht, hc, ihl.1, ihl.2]
  case _ => intro dn v exp u layer ty
            by_cases h : u = id <;> simp [toggleNode, checkNode, h, flipExpanded]
  case _ => intro dn v cs exp u layer ty ih
            by_cases h : u = id <;>
              simp [toggleNode, checkNode, h, flipExpanded, ih.1, ih.2]
  case _ => simp [toggleList, checkList]
  case _ => intro n l ihn ihl
            cases hc : checkNode id n with
            | some m =>
                have ht : (toggleNode id n).2 = true := by rw [ihn.2, hc]; rfl
                have h1 := ihn.1
                rw [hc] at h1
                simp [toggleList, checkList, ht, hc, h1]
            | none =>
                have ht : (toggleNode id n).2 = false := by rw [ihn.2, hc]; rfl
                simp [toggleList, checkList, ht, hc, ihl.1, ihl.2]

/-- When the lookup finds a leaf (expanded = none), the toggle leaves the
tree untouched. -/
theorem toggle_leaf_noop (id : Nat) :
    (∀ n : Node, ∀ m, checkNode id n = some m → m.expanded = none →
      (toggleNode id n).1 = n) ∧
    (∀ l : List Node, ∀ m, checkList id l = some m → m.expanded = none →
      (toggleList id l).1 = l) := by
  refine ⟨nodeIndAux
      (fun n => ∀ m, checkNode id n = some m → m.expanded = none → (toggleNode id n).1 = n)
      (fun l => ∀ m, checkList id l = some m → m.expanded = none → (toggleList id l).1 = l)
      ?_ ?_ ?_ ?_,
    listIndAux
      (fun n => ∀ m, checkNode id n = some m → m.expanded = none → (toggleNode id n).1 = n)
      (fun l => ∀ m, checkList id l = some m → m.expanded = none → (toggleList id l).1 = l)
      ?_ ?_ ?_ ?_⟩
  case _ => intro dn v exp u layer ty m hm hexp
            by_cases h : u = id <;> simp [checkNode, h] at hm
            · subst hm; simp [Node.expanded] at hexp
              simp [toggleNode, h, hexp, flipOpt]
  case _ => intro dn v cs exp u layer ty ih m hm hexp
            by_cases h : u = id <;> simp [checkNode, h] at hm
            · subst hm; simp [Node.expanded] at hexp
              simp [toggleNode, h, hexp, flipOpt]
            · simp [toggleNode, h, ih m hm hexp]
  case _ => intro m hm; simp [checkList] at hm
  case _ => intro n l ihn ihl m hm hexp
            cases hc : checkNode id n with
            | some m0 =>
                have ht : (toggleNode id n).2 = true := by
                  rw [((check_toggle id).1 n).2, hc]; rfl
                rw [checkList, hc] at hm
                cases hm
                simp [toggleList, ht, ihn m hc hexp]
            | none =>
                have ht : (toggleNode id n).2 = false := by
                  rw [((check_toggle id).1 n).2, hc]; rfl
                rw [checkList, hc] at hm
                simp [toggleList, ht, ihl m hm hexp]
  case _ => intro dn v exp u layer ty m hm hexp
            by_cases h : u = id <;> simp [checkNode, h] at hm
            · subst hm; simp [Node.expanded] at hexp
              simp [toggleNode, h, hexp, flipOpt]
  case _ => intro dn v cs exp u layer ty ih m hm hexp
            by_cases h : u = id <;> simp [checkNode, h] at hm
            · subst hm; simp [Node.expanded] at hexp
              simp [toggleNode, h, hexp, flipOpt]
            · simp [toggleNode, h, ih m hm hexp]
  case _ => intro m hm; simp [checkList] at hm
  case _ => intro n l ihn ihl m hm hexp
            cases hc : checkNode id n with
            | some m0 =>
                have ht : (toggleNode id n).2 = true := by
                  rw [((check_toggle id).1 n).2, hc]; rfl
                rw [checkList, hc] at hm
                cases hm
                simp [toggleList, ht, ihn m hc hexp]
            | none =>
                have ht : (toggleNode id n).2 = false := by
                  rw [((check_toggle id).1 n).2, hc]; rfl
                rw [checkList, hc] at hm
                simp [toggleList, ht, ihl m hm hexp]

/-- The uuid accessor on a constructor. -/
theorem Node.uuid_mk (dn v : String) (cs : Option (List Node)) (exp : Option Bool)
    (u layer : Nat) (ty : NodeType) : (Node.mk dn v cs exp u layer ty).uuid = u := rfl

/-- The row the expand function emits keeps the uuid of its source node. -/
theorem rowOf_uuid (n : Node) : (rowOf n).uuid = n.uuid := rfl

/-- Below a node whose ancestor chain is not fully expanded, no node
passes the visibility filter. -/
theorem withAnc_dead :
    (∀ n : Node, ∀ anc, allExpanded anc = false →
      (withAncNode anc n).filter (fun p => allExpanded p.2) = []) ∧
    (∀ l : List Node, ∀ anc, allExpanded anc = false →
      (withAncList anc l).filter (fun p => allExpanded p.2) = []) := by
  refine ⟨nodeIndAux
      (fun n => ∀ anc, allExpanded anc = false →
        (withAncNode anc n).filter (fun p => allExpanded p.2) = [])
      (fun l => ∀ anc, allExpanded anc = false →
        (withAncList anc l).filter (fun p => allExpanded p.2) = [])
      ?_ ?_ ?_ ?_,
    listIndAux
      (fun n => ∀ anc, allExpanded anc = false →
        (withAncNode anc n).filter (fun p => allExpanded p.2) = [])
      (fun l => ∀ anc, allExpanded anc = false →
        (withAncList anc l).filter (fun p => allExpanded p.2) = [])
      ?_ ?_ ?_ ?_⟩
  case _ => intro dn v exp u layer ty anc h; simp [withAncNode, List.filter, h]
  case _ => intro dn v cs exp u layer ty ih anc h
            have h2 : allExpanded (Node.mk dn v (some cs) exp u layer ty :: anc) = false := by
              unfold allExpanded at h ⊢
              rw [List.all_cons, h, Bool.and_false]
            simp [withAncNode, List.filter, h, ih _ h2]
  case _ => intro anc h; simp [withAncList]
  case _ => intro n l ihn ihl anc h
            simp [withAncList, List.filter_append, ihn anc h, ihl anc h]
  case _ => intro dn v exp u layer ty anc h; simp [withAncNode, List.filter, h]
  case _ => intro dn v cs exp u layer ty ih anc h
            have h2 : allExpanded (Node.mk dn v (some cs) exp u layer ty :: anc) = false := by
              unfold allExpanded at h ⊢
              rw [List.all_cons, h, Bool.and_false]
            simp [withAncNode, List.filter, h, ih _ h2]
  case _ => intro anc h; simp [withAncList]
  case _ => intro n l ihn ihl anc h
            simp [withAncList, List.filter_append, ihn anc h, ihl anc h]

/-- Under a fully expanded ancestor chain, the uuids of the rows the
expand function emits are exactly the uuids of the nodes the spec-side
enumeration declares visible, in the same order. -/
theorem withAnc_main :
    (∀ n : Node, ∀ anc, allExpanded anc = true →
      ((withAncNode anc n).filter (fun p => allExpanded p.2)).map (fun p => p.1.uuid) =
        (expandNode n).map Node.uuid) ∧
    (∀ l : List Node, ∀ anc, allExpanded anc = true →
      ((withAncList anc l).filter (fun p => allExpanded p.2)).map (fun p => p.1.uuid) =
        (expandList l).map Node.uuid) := by
  refine ⟨nodeIndAux
      (fun n => ∀ anc, allExpanded anc = true →
        ((withAncNode anc n).filter (fun p => allExpanded p.2)).map (fun p => p.1.uuid) =
          (expandNode n).map Node.uuid)
      (fun l => ∀ anc, allExpanded anc = true →
        ((withAncList anc l).filter (fun p => allExpanded p.2)).map (fun p => p.1.uuid) =
          (expandList l).map Node.uuid)
      ?_ ?_ ?_ ?_,
    listIndAux
      (fun n => ∀ anc, allExpanded anc = true →
        ((withAncNode anc n).filter (fun p => allExpanded p.2)).map (fun p => p.1.uuid) =
          (expandNode n).map Node.uuid)
      (fun l => ∀ anc, allExpanded anc = true →
        ((withAncList anc l).filter (fun p => allExpanded p.2)).map (fun p => p.1.uuid) =
          (expandList l).map Node.uuid)
      ?_ ?_ ?_ ?_⟩
  case _ => intro dn v exp u layer ty anc h
            cases exp with
            | none => simp [withAncNode, expandNode, List.filter, h, rowOf_uuid, Node.uuid_mk]
            | some b =>
                cases b <;> simp [withAncNode, expandNode, List.filter, h, rowOf_uuid, Node.uuid_mk]
  case _ => intro dn v cs exp u layer ty ih anc h
            cases exp with
            | some b =>
              cases b with
              | true =>
                  have h2 : allExpanded
                      (Node.mk dn v (some cs) (some true) u layer ty :: anc) = true := by
                    unfold allExpanded at h ⊢
                    rw [List.all_cons, h]
                    simp [Node.expanded]
                  simp [withAncNode, expandNode, List.filter, h, rowOf_uuid, Node.uuid_mk, ih _ h2]
              | false =>
                  have h2 : allExpanded
                      (Node.mk dn v (some cs) (some false) u layer ty :: anc) = false := by
                    unfold allExpanded
                    rw [List.all_cons]
                    simp [Node.expanded]
                  simp [withAncNode, expandNode, List.filter, h, rowOf_uuid, Node.uuid_mk,
                    withAnc_dead.2 _ _ h2]
            | none =>
                have h2 : allExpanded
                    (Node.mk dn v (some cs) none u layer ty :: anc) = false := by
                  unfold allExpanded
                  rw [List.all_cons]
                  simp [Node.expanded]
                simp [withAncNode, expandNode, List.filter, h, rowOf_uuid, Node.uuid_mk,
                  withAnc_dead.2 _ _ h2]
  case _ => intro anc h; simp [withAncList, expandList]
  case _ => intro n l ihn ihl anc h
            simp [withAncList, expandList, List.filter_append, List.map_append,
              ihn anc h, ihl anc h]
  case _ => intro dn v exp u layer ty anc h
            cases exp with
            | none => simp [withAncNode, expandNode, List.filter, h, rowOf_uuid, Node.uuid_mk]
            | some b =>
                cases b <;> simp [withAncNode, expandNode, List.filter, h, rowOf_uuid, Node.uuid_mk]
  case _ => intro dn v cs exp u layer ty ih anc h
            cases exp with
            | some b =>
              cases b with
              | true =>
                  have h2 : allExpanded
                      (Node.mk dn v (some cs) (some true) u layer ty :: anc) = true := by
                    unfold allExpanded at h ⊢
                    rw [List.all_cons, h]
                    simp [Node.expanded]
                  simp [withAncNode, expandNode, List.filter, h, rowOf_uuid, Node.uuid_mk, ih _ h2]
              | false =>
                  have h2 : allExpanded
                      (Node.mk dn v (some cs) (some false) u layer ty :: anc) = false := by
                    unfold allExpanded
                    rw [List.all_cons]
                    simp [Node.expanded]
                  simp [withAncNode, expandNode, List.filter, h, rowOf_uuid, Node.uuid_mk,
                    withAnc_dead.2 _ _ h2]
            | none =>
                have h2 : allExpanded
                    (Node.mk dn v (some cs) none u layer ty :: anc) = false := by
                  unfold allExpanded
                  rw [List.all_cons]
                  simp [Node.expanded]
                simp [withAncNode, expandNode, List.filter, h, rowOf_uuid, Node.uuid_mk,
                  withAnc_dead.2 _ _ h2]
  case _ => intro anc h; simp [withAncList, expandList]
  case _ => intro n l ihn ihl anc h
            simp [withAncList, expandList, List.filter_append, List.map_append,
              ihn anc h, ihl anc h]

/-- Submitting the command buffer never touches the mode or the dialog
flag: it only updates the status, the buffer and the published events. -/
theorem submitCommand_mode (sendOk : Bool) (s : AppState) :
    (submitCommand sendOk s).1.mode = s.mode ∧
    (submitCommand sendOk s).1.show_dialog = s.show_dialog := by
  constructor <;>
  · unfold submitCommand
    split
    · cases hp : parse s.commands s.command_buffer with
      | ok cmd => simp only [hp]; split <;> rfl
      | error e => simp only [hp]; cases e <;> rfl
    · rfl

/-- Key handling preserves the dialog invariant. -/
theorem handleInput_dialog_inv (sendOk : Bool) (s : AppState) (k : Key)
    (h : dialogModeInv s = true) : dialogModeInv (handleInput sendOk s k).1 = true := by
  unfold handleInput
  cases hm : s.mode <;> cases k
  all_goals try simp_all [dialogModeInv, close, normalKey, normalChar, insertKey,
    commandKey, toggleSelected, StatefulList.unselect, StatefulList.next,
    StatefulList.previous, (submitCommand_mode sendOk s).1, (submitCommand_mode sendOk s).2]
  all_goals try (split_ifs <;> try simp_all [(submitCommand_mode sendOk s).1,
    (submitCommand_mode sendOk s).2])
  all_goals try (split <;> try split)
  all_goals simp_all

/-- Bus-event handling preserves the dialog invariant. -/
theorem handleAppEvent_dialog_inv (fs : String → Option FS) (s : AppState) (e : AppEvent)
    (h : dialogModeInv s = true) : dialogModeInv (handleAppEvent fs s e) = true := by
  unfold handleAppEvent
  cases e <;> simp_all [dialogModeInv, close] <;> split <;> simp_all

/-- Every step of the main loop preserves the dialog invariant. -/
theorem step_dialog_inv (fs : String → Option FS) (sendOk : Bool) (s : AppState) (e : Ev)
    (h : dialogModeInv s = true) : dialogModeInv (step fs sendOk s e) = true := by
  cases e with
  | key k => exact handleInput_dialog_inv sendOk s k h
  | bus ev => exact handleAppEvent_dialog_inv fs s ev h

/-- Claim C1: the ordering the sort call actually applies does not obey
the documented policy.  Evaluating the code at the failing input: a
workspace with two plain files comes out in descending name order (the
documented policy says ascending), and the applied comparator places an
Info node before a File sibling (the documented policy says Info sorts
after everything). -/
theorem c1_sort_call_inverts_documented_order :
    load_explorer 0 (some "/w")
      (fun p => if p = "/w" then some (.dir (some [("a", .file), ("b", .file)])) else none)
      = .ok ([.mk "b" "/w/b" none none 1 0 .File, .mk "a" "/w/a" none none 0 0 .File], 2) ∧
    sort_by (fun a b => Node.cmp b a)
      [.mk "a" "/w/a" none none 0 0 .File, .mk "Empty workspace" "" none none 1 0 .Info]
      = [.mk "Empty workspace" "" none none 1 0 .Info,
         .mk "a" "/w/a" none none 0 0 .File] :=
  ⟨rfl, rfl⟩

/-- Claim C2, counterexample: opening a dialog while in Command mode and
dismissing it with the submit key leaves the application in Normal
mode, not in the Command mode that was active when the dialog opened. -/
theorem c2_dialog_dismissal_counterexample :
    (handleInput true
        (handleAppEvent (fun _ => none) { initialApp with mode := .CommandMode }
          (.ShowDialog "t" "c"))
        (.Char '\n')).1.mode = .NormalMode ∧
    AppMode.NormalMode ≠ .CommandMode :=
  ⟨rfl, by decide⟩

/-- Claim C2, amended: the ShowDialog event raises the dialog flag and
forces Normal mode; while the flag is set every key other than the
submit key leaves the state unchanged, and the submit key only clears
the flag; after dismissal the application is in Normal mode, so the
prior mode is resumed exactly when it was Normal. -/
theorem c2_dialog_forces_normal_mode_amended (fs : String → Option FS) (sendOk : Bool)
    (s : AppState) (title content : String) (k : Key) :
    (handleAppEvent fs s (.ShowDialog title content)).mode = .NormalMode ∧
    (handleAppEvent fs s (.ShowDialog title content)).show_dialog = true ∧
    (k ≠ .Char '\n' →
      (handleInput sendOk (handleAppEvent fs s (.ShowDialog title content)) k).1
        = handleAppEvent fs s (.ShowDialog title content)) ∧
    (handleInput sendOk (handleAppEvent fs s (.ShowDialog title content)) (.Char '\n')).1
      = { handleAppEvent fs s (.ShowDialog title content) with show_dialog := false } ∧
    (handleInput sendOk (handleAppEvent fs s (.ShowDialog title content)) (.Char '\n')).1.mode
      = .NormalMode := by
  refine ⟨rfl, rfl, ?_, rfl, rfl⟩
  intro hk
  cases k with
  | Char c =>
      have hc : ¬ c = '\n' := fun h => hk (by rw [h])
      show (normalChar (handleAppEvent fs s (.ShowDialog title content)) c).1
        = handleAppEvent fs s (.ShowDialog title content)
      simp [normalChar, handleAppEvent, hc]
  | Esc => rfl
  | Down => rfl
  | Up => rfl
  | Backspace => rfl
  | other => rfl

/-- Claim C2, witness for the amended theorem at concrete inputs. -/
theorem c2_dialog_forces_normal_mode_amended_witness :
    (handleInput true (handleAppEvent (fun _ => none) initialApp (.ShowDialog "t" "c"))
        (.Char 'z')).1
      = handleAppEvent (fun _ => none) initialApp (.ShowDialog "t" "c") ∧
    (handleInput true (handleAppEvent (fun _ => none) initialApp (.ShowDialog "t" "c"))
        (.Char '\n')).1.mode = .NormalMode :=
  ⟨(c2_dialog_forces_normal_mode_amended (fun _ => none) true initialApp "t" "c"
      (.Char 'z')).2.2.1 (by decide),
   (c2_dialog_forces_normal_mode_amended (fun _ => none) true initialApp "t" "c"
      (.Char 'z')).2.2.2.2⟩

/-- Claim C3, counterexample: when the top-level directory listing fails,
load_explorer returns an error and the node list is left unchanged (here
empty), so the tree does not consist of one synthetic Info root and
flatten yields zero rows, not one. -/
theorem c3_top_level_failure_counterexample :
    load_explorer 0 (some "/w") (fun _ => some (.dir none)) = .error () ∧
    (handleAppEvent (fun _ => some (.dir none)) initialApp (.SetWorkspace "/w")).file_list
      = [] ∧
    (expandList (handleAppEvent (fun _ => some (.dir none)) initialApp
        (.SetWorkspace "/w")).file_list).length = 0 ∧
    (handleAppEvent (fun _ => some (.dir none)) initialApp (.SetWorkspace "/w")).status
      = ⟨"Error while loading the explorer", .ERROR⟩ :=
  ⟨rfl, rfl, rfl, rfl⟩

/-- Claim C3, amended: with no workspace path the build produces exactly
one synthetic Info root named Empty workspace with no children and
flatten yields exactly one row; a failing top-level listing instead
returns an error, which the event handler surfaces as a one-line
error-level status message while keeping the previous node list. -/
theorem c3_empty_workspace_amended (ctr : Nat) (fs : String → Option FS)
    (s : AppState) (w : String) (hfs : fs w = some (.dir none)) :
    load_explorer ctr none fs
      = .ok ([.mk "Empty workspace" "" none none ctr 0 .Info], ctr + 1) ∧
    (expandList [Node.mk "Empty workspace" "" none none ctr 0 .Info]).length = 1 ∧
    handleAppEvent fs s (.SetWorkspace w)
      = { s with
          working_path := some w
          status := ⟨"Error while loading the explorer", .ERROR⟩ } := by
  refine ⟨rfl, rfl, ?_⟩
  simp [handleAppEvent, load_explorer, hfs]

/-- Claim C3, witness for the amended theorem at concrete inputs. -/
theorem c3_empty_workspace_amended_witness :
    load_explorer 0 none (fun _ => some (.dir none))
      = .ok ([.mk "Empty workspace" "" none none 0 0 .Info], 1) ∧
    handleAppEvent (fun _ => some (.dir none)) initialApp (.SetWorkspace "/w")
      = { initialApp with
          working_path := some "/w"
          status := ⟨"Error while loading the explorer", .ERROR⟩ } :=
  ⟨(c3_empty_workspace_amended 0 (fun _ => some (.dir none)) initialApp "/w" rfl).1,
   (c3_empty_workspace_amended 0 (fun _ => some (.dir none)) initialApp "/w" rfl).2.2⟩

/-- Claim C4, counterexample: a quit command whose channel send fails
returns ExecutionError, yet submitting it leaves the status bar at its
default INFO value: the execution error is silently dropped instead of
resolving to an error-level status message. -/
theorem c4_execution_error_dropped_counterexample :
    Cmd.execute .QuitCommand false []
      = .error (.ExecutionError
          (some "Error while sending the quit event to the application")) ∧
    (handleInput false
        { initialApp with
          mode := .CommandMode
          command_buffer := "quit" }
        (.Char '\n')).1.status = Status.default ∧
    Status.default.level = .INFO ∧ StatusLevel.INFO ≠ .ERROR :=
  ⟨rfl, rfl, rfl, by decide⟩

/-- Claim C4, amended: submitting a command line never changes the
should_close flag; a NotFound from the dispatcher and an InvalidSyntax
from execution resolve to error-level status messages, while an
ExecutionError returned by execute leaves the status unchanged. -/
theorem c4_command_errors_amended (sendOk : Bool) (s : AppState) :
    (submitCommand sendOk s).1.should_close = s.should_close ∧
    (s.command_buffer ≠ "" → parse s.commands s.command_buffer = .error .NotFound →
      (submitCommand sendOk s).1.status = ⟨"Command not found!", .ERROR⟩) ∧
    (∀ cmd, s.command_buffer ≠ "" → parse s.commands s.command_buffer = .ok cmd →
      cmd.execute sendOk ((splitChar ' ' s.command_buffer).drop 1) = .error .InvalidSyntax →
      (submitCommand sendOk s).1.status
        = ⟨"Invalid syntax! Type `help " ++ cmd.get_name ++ "`", .ERROR⟩) ∧
    (∀ cmd r, s.command_buffer ≠ "" → parse s.commands s.command_buffer = .ok cmd →
      cmd.execute sendOk ((splitChar ' ' s.command_buffer).drop 1)
        = .error (.ExecutionError r) →
      (submitCommand sendOk s).1.status = s.status) := by
  refine ⟨?_, ?_, ?_, ?_⟩
  · unfold submitCommand
    split
    · cases hp : parse s.commands s.command_buffer with
      | ok cmd => simp only [hp]; split <;> rfl
      | error e => simp only [hp]; cases e <;> rfl
    · rfl
  · intro hb hp
    unfold submitCommand
    rw [if_pos hb, hp]
  · intro cmd hb hp hx
    unfold submitCommand
    rw [if_pos hb, hp]
    simp only [hx]
  · intro cmd r hb hp hx
    unfold submitCommand
    rw [if_pos hb, hp]
    simp only [hx]

/-- Claim C4, witness for the amended theorem at concrete inputs. -/
theorem c4_command_errors_amended_witness :
    (submitCommand true { initialApp with command_buffer := "bogus" }).1.status
      = ⟨"Command not found!", .ERROR⟩ ∧
    (submitCommand true { initialApp with command_buffer := "open" }).1.status
      = ⟨"Invalid syntax! Type `help open`", .ERROR⟩ ∧
    (submitCommand false { initialApp with command_buffer := "quit" }).1.status
      = Status.default ∧
    (submitCommand false { initialApp with command_buffer := "quit" }).1.should_close
      = false :=
  ⟨(c4_command_errors_amended true { initialApp with command_buffer := "bogus" }).2.1
      (by decide) rfl,
   (c4_command_errors_amended true { initialApp with command_buffer := "open" }).2.2.1
      .OpenCommand (by decide) rfl rfl,
   (c4_command_errors_amended false { initialApp with command_buffer := "quit" }).2.2.2
      .QuitCommand (some "Error while sending the quit event to the application")
      (by decide) rfl rfl,
   (c4_command_errors_amended false { initialApp with command_buffer := "quit" }).1⟩

/-- Claim C5, counterexample: on an empty item sequence with no selected
index, next() is not a no-op that leaves the cursor unselected: it
selects index 0. -/
theorem c5_next_on_empty_counterexample :
    (StatefulList.next (⟨none, []⟩ : StatefulList Nat)).selected = some 0 ∧
    some 0 ≠ (none : Option Nat) :=
  ⟨rfl, by decide⟩

/-- Claim C5, amended: with no selected index next() selects index 0,
whether or not the item sequence is empty; with index i selected on a
non-empty sequence it advances to i+1 and wraps from the last index
to 0. -/
theorem c5_next_amended (l : StatefulList α) :
    (l.selected = none → l.next = { l with selected := some 0 }) ∧
    (∀ i, l.selected = some i → i < l.items.length →
      l.next
        = { l with selected := some (if i = l.items.length - 1 then 0 else i + 1) }) := by
  constructor
  · intro h; simp [StatefulList.next, h]
  · intro i h hi
    by_cases he : i = l.items.length - 1
    · have hge : i ≥ l.items.length - 1 := by omega
      simp [StatefulList.next, h, he, hge]
    · have hge : ¬ i ≥ l.items.length - 1 := by omega
      simp [StatefulList.next, h, he, hge]

/-- Claim C5, witness for the amended theorem at concrete inputs. -/
theorem c5_next_amended_witness :
    StatefulList.next (⟨none, []⟩ : StatefulList Nat) = ⟨some 0, []⟩ ∧
    StatefulList.next (⟨some 2, [10, 20, 30]⟩ : StatefulList Nat)
      = ⟨some 0, [10, 20, 30]⟩ := by
  constructor
  · exact (c5_next_amended ⟨none, []⟩).1 rfl
  · have h := (c5_next_amended (⟨some 2, [10, 20, 30]⟩ : StatefulList Nat)).2 2 rfl
      (by decide)
    simpa using h

/-- Claim C6, counterexample: executing the open command with two
arguments does not fail with InvalidSyntax: it succeeds and publishes
SetWorkspace with the first argument. -/
theorem c6_open_two_args_counterexample :
    Cmd.execute .OpenCommand true ["a", "b"] = .ok [.SetWorkspace "a"] ∧
    Cmd.execute .OpenCommand true ["a", "b"] ≠ .error .InvalidSyntax :=
  ⟨rfl, fun h => Except.noConfusion h⟩

/-- Claim C6, amended: the open command requires at least one argument:
with an empty argument list it fails with InvalidSyntax and publishes
nothing, and with one or more arguments it publishes SetWorkspace of
the first argument and returns Ok when the send succeeds, or fails with
ExecutionError when the send fails. -/
theorem c6_open_arity_amended (p : String) (rest : List String) :
    Cmd.execute .OpenCommand true [] = .error .InvalidSyntax ∧
    Cmd.execute .OpenCommand false [] = .error .InvalidSyntax ∧
    Cmd.execute .OpenCommand true (p :: rest) = .ok [.SetWorkspace p] ∧
    Cmd.execute .OpenCommand false (p :: rest)
      = .error (.ExecutionError
          (some "Error while sending workspace event to the application")) := by
  have hlen : ¬ ((p :: rest).length < 1) := by simp
  refine ⟨rfl, rfl, ?_, ?_⟩ <;> simp [Cmd.execute, hlen]

/-- Claim C7: toggling the expanded field through a uuid is self-inverse
on the whole tree; a single toggle flips the expanded field of the node
the lookup finds (Some true to Some false and back, none staying none),
and it is a no-op when the lookup finds a leaf or finds nothing. -/
theorem c7_toggle_expand_involutive (id : Nat) (ns : List Node) :
    toggle_expand id (toggle_expand id ns) = ns ∧
    from_uuid id (toggle_expand id ns) = (from_uuid id ns).map flipExpanded ∧
    (from_uuid id ns = none → toggle_expand id ns = ns) ∧
    (∀ m, from_uuid id ns = some m → m.expanded = none → toggle_expand id ns = ns) := by
  refine ⟨?_, ?_, ?_, ?_⟩
  · show (toggleList id (toggleList id ns).1).1 = ns
    rw [(toggle_toggle id).2 ns]
  · exact ((check_toggle id).2 ns).1
  · intro h
    have h2 := ((check_toggle id).2 ns).2
    simp only [from_uuid] at h
    rw [h] at h2
    simp only [Option.isSome_none] at h2
    exact (toggle_not_found id).2 ns h2
  · intro m hm hexp
    exact (toggle_leaf_noop id).2 ns m hm hexp

/-- Claim C7, witness for the theorem at the sample tree: toggling the
expanded directory twice restores the tree, a single toggle flips its
expanded field, an absent uuid is a no-op and a leaf uuid is a no-op. -/
theorem c7_toggle_expand_involutive_witness :
    toggle_expand 1 (toggle_expand 1 sampleTree) = sampleTree ∧
    from_uuid 1 (toggle_expand 1 sampleTree) = (from_uuid 1 sampleTree).map flipExpanded ∧
    toggle_expand 99 sampleTree = sampleTree ∧
    toggle_expand 3 sampleTree = sampleTree :=
  ⟨(c7_toggle_expand_involutive 1 sampleTree).1,
   (c7_toggle_expand_involutive 1 sampleTree).2.1,
   (c7_toggle_expand_involutive 99 sampleTree).2.2.1 rfl,
   (c7_toggle_expand_involutive 3 sampleTree).2.2.2
     (.mk "y" "/y" none none 3 0 .File) rfl rfl⟩

/-- Claim C8: the flatten pass emits one row per node whose whole chain
of proper ancestors is expanded, in depth-first pre-order, each row
carrying the uuid of its source node: the row uuids equal the uuids of
the spec-side ancestor-chain enumeration filtered to expanded chains,
and the row count equals the count of such nodes. -/
theorem c8_flatten_preorder_row_count (roots : List Node) :
    (expandList roots).map Node.uuid =
      ((withAncList [] roots).filter (fun p => allExpanded p.2)).map (fun p => p.1.uuid) ∧
    (expandList roots).length =
      ((withAncList [] roots).filter (fun p => allExpanded p.2)).length := by
  have h := withAnc_main.2 roots [] rfl
  refine ⟨h.symm, ?_⟩
  have h1 : (expandList roots).length = ((expandList roots).map Node.uuid).length :=
    (List.length_map _ _).symm
  rw [h1, ← h, List.length_map]

/-- Claim C9: on a non-empty sequence with a selected index below the
length, next then previous restores the cursor, and previous then next
restores it as well. -/
theorem c9_next_previous_inverse (l : StatefulList α) (i : Nat)
    (h0 : 0 < l.items.length) (hs : l.selected = some i)
    (hi : i < l.items.length) :
    l.next.previous = l ∧ l.previous.next = l := by
  obtain ⟨sel, items⟩ := l
  simp only at hs h0 hi
  subst hs
  constructor <;>
  · simp [StatefulList.next, StatefulList.previous]
    split_ifs <;> omega

/-- Claim C9, witness for the theorem at a concrete three-item list. -/
theorem c9_next_previous_inverse_witness :
    (⟨some 1, [10, 20, 30]⟩ : StatefulList Nat).next.previous
      = ⟨some 1, [10, 20, 30]⟩ ∧
    (⟨some 1, [10, 20, 30]⟩ : StatefulList Nat).previous.next
      = ⟨some 1, [10, 20, 30]⟩ :=
  c9_next_previous_inverse ⟨some 1, [10, 20, 30]⟩ 1 (by decide) rfl (by decide)

/-- Claim C10: in every state reachable from the initial state under any
sequence of key and bus events, an open dialog implies Normal mode: no
input or bus event can make Insert or Command mode coexist with an open
dialog. -/
theorem c10_dialog_implies_normal_mode (fs : String → Option FS) (sendOk : Bool)
    (evs : List Ev) : dialogModeInv (run fs sendOk evs) = true := by
  have key : ∀ (l : List Ev) (s : AppState), dialogModeInv s = true →
      dialogModeInv (l.foldl (step fs sendOk) s) = true := by
    intro l
    induction l with
    | nil => intro s h; exact h
    | cons e rest ih =>
        intro s h
        exact ih _ (step_dialog_inv fs sendOk s e h)
  exact key evs initialApp rfl

end LEdit
